import Mathlib

/-!
Verification of the Flask RAG service in src/app.py.

The file embeds the two request handlers (upload_files, query_documents)
and the in-memory session store as pure Lean functions.  External
collaborators (PyPDFLoader, the embedding model, FAISS, the LLM) are
abstracted: an index is an opaque value, and the outcome of building it
is a parameter of the handler (some idx = FAISS.from_documents succeeded,
none = it raised).  The fresh uuid4 string produced on line 78 is likewise
a parameter of the handler.
-/

/-- Upload folder constant, app.py line 19. -/
def UPLOAD_FOLDER : String := "temp_uploads"

/-- Python str.endswith of the literal suffix on app.py line 54:
case-sensitive suffix test of the characters. -/
def endsWithPdf (name : String) : Bool :=
  (".pdf").data.isSuffixOf name.data

/-- The loop guard on app.py line 54, `if file and file.filename.endswith('.pdf')`:
a werkzeug FileStorage is truthy exactly when its filename is non-empty. -/
def validPdfName (name : String) : Bool :=
  name != "" && endsWithPdf name

/-- The path a saved upload gets on app.py line 56 (secure_filename is
modelled as the identity; the claims do not depend on name mangling). -/
def filePath (f : String) : String :=
  UPLOAD_FOLDER ++ "/" ++ f

/-- An index (FAISS vector store) is opaque to the claims; it is
identified by an abstract value. -/
abbrev Index := Nat

/-- The global dict vector_stores, app.py line 26, as an association list.
Assignment prepends, lookup takes the first hit, which is extensionally
the Python dict overwrite-on-assign semantics. -/
abbrev SessionStore := List (String × Index)

/-- vector_stores[session_id] = vector_store, app.py line 79. -/
def sessionCreate (sid : String) (idx : Index) (s : SessionStore) : SessionStore :=
  (sid, idx) :: s

/-- Dict lookup, app.py lines 98 and 101. -/
def sessionGet (sid : String) (s : SessionStore) : Option Index :=
  List.lookup sid s

/-- Process state touched by the handlers: the session map and the set of
files presently in the temp upload folder.  temp is tracked as the list
of paths the service leaves behind: file.save appends a path and the
cleanup loop on lines 74-75 removes exactly the batch's saved paths, so a
batch whose saved files are all removed leaves temp unchanged (filename
collisions with pre-existing temp files are not modelled). -/
structure AppState where
  stores : SessionStore
  temp : List String
deriving DecidableEq

/-- Responses of upload_files, app.py lines 44, 48, 64, 81, 85. -/
inductive UploadResp where
  | noFilesPart
  | noSelected
  | invalidType
  | processFail
  | success (sid : String)
deriving DecidableEq

/-- The HTTP status each upload response carries. -/
def uploadStatus : UploadResp → Nat
  | .noFilesPart => 400
  | .noSelected => 400
  | .invalidType => 400
  | .processFail => 500
  | .success _ => 200

/-- The loop of app.py lines 53-64: saves each PDF-named file in order and
stops at the first file failing the type check.  Returns the saved paths,
as .error when the loop ended in the 400 rejection (line 64) with the
paths saved before the rejection, as .ok when every file passed. -/
def processFiles : List String → List String → Except (List String) (List String)
  | [], saved => .ok saved
  | f :: rest, saved =>
    if validPdfName f then processFiles rest (saved ++ [filePath f])
    else .error saved

/-- upload_files, app.py lines 40-85.  files? is none when 'files' is
missing from request.files; build is the outcome of lines 68-71 (none
models an exception from the splitter / embeddings / FAISS); sid is the
uuid4 string of line 78. -/
def upload (files? : Option (List String)) (build : Option Index) (sid : String)
    (st : AppState) : UploadResp × AppState :=
  match files? with
  | none => (.noFilesPart, st)
  | some files =>
    if files.isEmpty || files.all (· == "") then (.noSelected, st)
    else
      match processFiles files [] with
      | .error saved => (.invalidType, { st with temp := st.temp ++ saved })
      | .ok saved =>
        match build with
        | none => (.processFail, { st with temp := st.temp ++ saved })
        | some idx =>
          (.success sid, { stores := sessionCreate sid idx st.stores, temp := st.temp })

/-- Responses of query_documents, app.py lines 93, 99, 127, 131. -/
inductive QueryResp where
  | badReq
  | notFound
  | answer
  | processFail
deriving DecidableEq

/-- The HTTP status each query response carries. -/
def queryStatus : QueryResp → Nat
  | .badReq => 400
  | .notFound => 404
  | .answer => 200
  | .processFail => 500

/-- query_documents, app.py lines 88-131.  body is the parsed JSON object
(none when absent or null); llmOk is whether the RAG chain of lines
105-125 succeeds.  The Python guard `not data or 'query' not in data or
'session_id' not in data` collapses to the two field lookups, since a
falsy (empty) dict has neither key. -/
def query (body : Option (List (String × String))) (llmOk : Bool)
    (st : AppState) : QueryResp × AppState :=
  match body with
  | none => (.badReq, st)
  | some data =>
    match List.lookup ("query") data, List.lookup ("session_id") data with
    | some _q, some sid =>
      match sessionGet sid st.stores with
      | none => (.notFound, st)
      | some _idx => (if llmOk then (.answer, st) else (.processFail, st))
    | some _, none => (.badReq, st)
    | none, _ => (.badReq, st)

/-- C3: looking up the session identifier just created returns exactly the
stored index. -/
theorem sessionStore_get_create (sid : String) (idx : Index) (s : SessionStore) :
    sessionGet sid (sessionCreate sid idx s) = some idx := by
  simp [sessionGet, sessionCreate, List.lookup]

theorem validPdfName_of_endsWith {f : String} (h : endsWithPdf f = false) :
    validPdfName f = false := by
  simp [validPdfName, h]

theorem processFiles_error_of_exists (files saved : List String)
    (h : ∃ f ∈ files, validPdfName f = false) :
    ∃ s, processFiles files saved = .error s := by
  induction files generalizing saved with
  | nil => simp at h
  | cons f rest ih =>
    by_cases hf : validPdfName f = true
    · obtain ⟨g, hg, hgv⟩ := h
      rcases List.mem_cons.mp hg with hg | hg
      · subst hg; rw [hf] at hgv; cases hgv
      · exact (ih (saved ++ [filePath f]) ⟨g, hg, hgv⟩).imp (by simp [processFiles, hf])
    · exact ⟨saved, by simp [processFiles, hf]⟩

theorem processFiles_ok_of_all (files saved : List String)
    (h : ∀ f ∈ files, validPdfName f = true) :
    processFiles files saved = .ok (saved ++ files.map filePath) := by
  induction files generalizing saved with
  | nil => simp [processFiles]
  | cons f rest ih =>
    have hf : validPdfName f = true := h f (by simp)
    rw [processFiles, if_pos hf, ih _ (fun g hg => h g (by simp [hg]))]
    simp

theorem guard_false_of_all_valid {files : List String} (hne : files ≠ [])
    (h : ∀ f ∈ files, validPdfName f = true) :
    (files.isEmpty || files.all (· == "")) = false := by
  cases files with
  | nil => exact absurd rfl hne
  | cons f rest =>
    have hf : validPdfName f = true := h f (by simp)
    have : (f == "") = false := by
      by_contra hc
      rw [Bool.not_eq_false] at hc
      have : f = "" := by exact eq_of_beq hc
      subst this
      simp [validPdfName] at hf
    simp [List.all_cons, this]

/-- C2: any file whose name does not end in '.pdf' makes the whole request
fail with a 400 response and leaves the session store unchanged — no
session is created for the PDF files of the same batch. -/
theorem upload_rejects_nonpdf (files : List String) (build : Option Index)
    (sid : String) (st : AppState)
    (h : ∃ f ∈ files, endsWithPdf f = false) :
    uploadStatus (upload (some files) build sid st).1 = 400 ∧
    (upload (some files) build sid st).2.stores = st.stores := by
  cases hguard : (files.isEmpty || files.all (· == "")) with
  | true => simp [upload, hguard, uploadStatus]
  | false =>
    obtain ⟨s, hs⟩ := processFiles_error_of_exists files []
      (h.imp fun f ⟨hm, he⟩ => ⟨hm, validPdfName_of_endsWith he⟩)
    simp [upload, hguard, hs, uploadStatus]

/-- Witness: a batch holding 'a.txt' is rejected with 400 and the store
stays empty. -/
theorem upload_rejects_nonpdf_witness :
    uploadStatus (upload (some [("a.txt")]) (some 0) ("sid0") ⟨[], []⟩).1 = 400 ∧
    (upload (some [("a.txt")]) (some 0) ("sid0") ⟨[], []⟩).2.stores = [] :=
  upload_rejects_nonpdf [("a.txt")] (some 0) ("sid0") ⟨[], []⟩
    ⟨("a.txt"), by simp, by decide⟩

/-- C7: when every file passes validation but index construction fails,
the request answers 500 and the session store is unchanged — no partial
index is retained and no session identifier is allocated. -/
theorem upload_build_failure (files : List String) (sid : String) (st : AppState)
    (hne : files ≠ []) (h : ∀ f ∈ files, validPdfName f = true) :
    (upload (some files) none sid st).1 = .processFail ∧
    uploadStatus (upload (some files) none sid st).1 = 500 ∧
    (upload (some files) none sid st).2.stores = st.stores := by
  have hguard := guard_false_of_all_valid hne h
  have hok := processFiles_ok_of_all files [] h
  simp [upload, hguard, hok, uploadStatus]

/-- Witness: a one-file valid batch whose index build fails answers 500
and stores nothing. -/
theorem upload_build_failure_witness :
    (upload (some [("a.pdf")]) none ("sid0") ⟨[], []⟩).1 = .processFail ∧
    uploadStatus (upload (some [("a.pdf")]) none ("sid0") ⟨[], []⟩).1 = 500 ∧
    (upload (some [("a.pdf")]) none ("sid0") ⟨[], []⟩).2.stores = [] :=
  upload_build_failure [("a.pdf")] ("sid0") ⟨[], []⟩ (by simp)
    (by intro f hf; simp at hf; subst hf; decide)

/-- C1 counterexample: a valid one-file batch whose index build fails
(the except branch on app.py lines 83-85) leaves the saved upload in the
temporary folder — the cleanup loop on lines 74-75 sits inside the try
block and never runs on that path, so the folder is not left unchanged. -/
theorem upload_cleanup_counterexample :
    (upload (some [("a.pdf")]) none ("sid0") ⟨[], []⟩).2.temp ≠ ([] : List String) := by
  decide

theorem processFiles_error_at (pre : List String) (f : String) (post : List String)
    (saved : List String)
    (hpre : ∀ g ∈ pre, validPdfName g = true) (hf : validPdfName f = false) :
    processFiles (pre ++ f :: post) saved = .error (saved ++ pre.map filePath) := by
  induction pre generalizing saved with
  | nil => simp [processFiles, hf]
  | cons g rest ih =>
    have hg : validPdfName g = true := hpre g (by simp)
    rw [List.cons_append, processFiles, if_pos hg,
      ih _ (fun x hx => hpre x (by simp [hx]))]
    simp

/-- C1 amended: uploaded bytes are removed from the temporary folder only
on the success path; when index construction fails after a fully valid
batch, every saved file of the batch remains in the folder, and when the
loop rejects a non-PDF file mid-batch, the files saved before the
rejection remain in the folder. -/
theorem upload_cleanup_amended (files : List String) (build : Option Index)
    (sid : String) (st : AppState) :
    ((upload (some files) build sid st).1 = .success sid →
      (upload (some files) build sid st).2.temp = st.temp)
    ∧ (files ≠ [] → (∀ f ∈ files, validPdfName f = true) →
      (upload (some files) none sid st).2.temp = st.temp ++ files.map filePath)
    ∧ (∀ pre f post, files = pre ++ f :: post →
      (∀ g ∈ pre, validPdfName g = true) → validPdfName f = false →
      (upload (some files) build sid st).2.temp = st.temp ++ pre.map filePath) := by
  refine ⟨?_, ?_, ?_⟩
  · intro hs
    cases hguard : (files.isEmpty || files.all (· == "")) with
    | true => simp [upload, hguard]
    | false =>
      cases hpf : processFiles files [] with
      | error s => rw [upload] at hs; simp [hguard, hpf] at hs
      | ok s =>
        cases build with
        | none => rw [upload] at hs; simp [hguard, hpf] at hs
        | some idx => simp [upload, hguard, hpf]
  · intro hne h
    have hguard := guard_false_of_all_valid hne h
    have hok := processFiles_ok_of_all files [] h
    simp [upload, hguard, hok]
  · rintro pre f post rfl hpre hf
    cases hguard : ((pre ++ f :: post).isEmpty || (pre ++ f :: post).all (· == "")) with
    | true =>
      have hpre_nil : pre = [] := by
        cases pre with
        | nil => rfl
        | cons g rest =>
          have hg := hpre g (by simp)
          have hall : ((g :: rest ++ f :: post).all (· == "")) = true := by
            simpa using hguard
          have hge : (g == "") = true := List.all_eq_true.mp hall g (by simp)
          have : g = "" := eq_of_beq hge
          subst this
          simp [validPdfName] at hg
      subst hpre_nil
      rw [upload, if_pos hguard]
      simp
    | false =>
      have herr := processFiles_error_at pre f post [] hpre hf
      rw [upload, if_neg (by rw [hguard]; exact Bool.false_ne_true), herr]
      simp

/-- C1 amended witness: on a successful upload the temp folder is
unchanged, on a failed build the batch's file remains, and on a mid-batch
rejection of 'b.txt' the previously saved 'a.pdf' remains. -/
theorem upload_cleanup_amended_witness :
    (upload (some [("a.pdf")]) (some 1) ("sid0") ⟨[], []⟩).2.temp = []
    ∧ (upload (some [("a.pdf")]) none ("sid0") ⟨[], []⟩).2.temp =
      [] ++ [("a.pdf")].map filePath
    ∧ (upload (some [("a.pdf"), ("b.txt")]) (some 1) ("sid0") ⟨[], []⟩).2.temp =
      [] ++ [("a.pdf")].map filePath :=
  ⟨(upload_cleanup_amended [("a.pdf")] (some 1) ("sid0") ⟨[], []⟩).1 (by decide),
   (upload_cleanup_amended [("a.pdf")] none ("sid0") ⟨[], []⟩).2.1 (by simp)
     (by intro f hf; simp at hf; subst hf; decide),
   (upload_cleanup_amended [("a.pdf"), ("b.txt")] (some 1) ("sid0") ⟨[], []⟩).2.2
     [("a.pdf")] ("b.txt") [] rfl
     (by intro g hg; simp at hg; subst hg; decide) (by decide)⟩

/-- C10 counterexample: a batch whose only file has an empty name is
caught by the no-selected-files guard on app.py line 47, so the response
is not the invalid-file-type one the claim names. -/
theorem upload_type_check_counterexample :
    (upload (some [("")]) (some 0) ("sid0") ⟨[], []⟩).1 ≠ UploadResp.invalidType := by
  decide

/-- C10 amended: the suffix check is case-sensitive, so a file whose name
does not end in lowercase '.pdf' (an uppercase variant such as '.PDF', or
an empty name) makes the request fail with 400: the invalid-file-type
response when not every filename is empty, and the no-selected-files
response when every filename is empty. -/
theorem upload_type_check_amended (files : List String) (build : Option Index)
    (sid : String) (st : AppState)
    (h : ∃ f ∈ files, endsWithPdf f = false) :
    uploadStatus (upload (some files) build sid st).1 = 400
    ∧ (files.all (· == "") = false →
        (upload (some files) build sid st).1 = .invalidType)
    ∧ (files.all (· == "") = true →
        (upload (some files) build sid st).1 = .noSelected) := by
  have hne : files.isEmpty = false := by
    obtain ⟨f0, hf0, _⟩ := h
    cases files with
    | nil => simp at hf0
    | cons a l => rfl
  cases hall : files.all (· == "") with
  | true =>
    have hguard : (files.isEmpty || files.all (· == "")) = true := by simp [hall]
    simp [upload, hguard, uploadStatus]
  | false =>
    have hguard : (files.isEmpty || files.all (· == "")) = false := by simp [hne, hall]
    obtain ⟨s, hs⟩ := processFiles_error_of_exists files []
      (h.imp fun f ⟨hm, he⟩ => ⟨hm, validPdfName_of_endsWith he⟩)
    simp [upload, hguard, hs, uploadStatus]

/-- C10 amended witness: a file named 'x.PDF' is rejected with the
invalid-file-type 400 response. -/
theorem upload_type_check_amended_witness :
    uploadStatus (upload (some [("x.PDF")]) (some 0) ("sid0") ⟨[], []⟩).1 = 400
    ∧ (upload (some [("x.PDF")]) (some 0) ("sid0") ⟨[], []⟩).1 = .invalidType :=
  ⟨(upload_type_check_amended [("x.PDF")] (some 0) ("sid0") ⟨[], []⟩
      ⟨("x.PDF"), by simp, by decide⟩).1,
   (upload_type_check_amended [("x.PDF")] (some 0) ("sid0") ⟨[], []⟩
      ⟨("x.PDF"), by simp, by decide⟩).2.1 (by decide)⟩

theorem query_preserves_state (body : Option (List (String × String)))
    (llmOk : Bool) (st : AppState) : (query body llmOk st).2 = st := by
  unfold query
  rcases body with _ | data
  · rfl
  · cases hq : List.lookup ("query") data <;>
      cases hs : List.lookup ("session_id") data <;>
      simp [hq, hs]
    cases hg : sessionGet _ st.stores <;> simp [hg]
    cases llmOk <;> rfl

/-- C8: a /query body missing the query or session_id field answers 400,
a present but unknown session_id answers 404, and the state is unchanged
on both paths. -/
theorem query_error_handling (body : Option (List (String × String)))
    (llmOk : Bool) (st : AppState) :
    ((body = none ∨ ∃ data, body = some data ∧
        (List.lookup ("query") data = none ∨ List.lookup ("session_id") data = none)) →
      queryStatus (query body llmOk st).1 = 400 ∧ (query body llmOk st).2 = st)
    ∧ (∀ data q sid, body = some data → List.lookup ("query") data = some q →
        List.lookup ("session_id") data = some sid → sessionGet sid st.stores = none →
        queryStatus (query body llmOk st).1 = 404 ∧ (query body llmOk st).2 = st) := by
  constructor
  · rintro (rfl | ⟨data, rfl, hmiss⟩)
    · exact ⟨rfl, rfl⟩
    · refine ⟨?_, query_preserves_state _ llmOk st⟩
      cases hq : List.lookup ("query") data with
      | none => simp [query, hq, queryStatus]
      | some q =>
        cases hs : List.lookup ("session_id") data with
        | none => simp [query, hq, hs, queryStatus]
        | some s =>
          rcases hmiss with hm | hm
          · rw [hq] at hm; cases hm
          · rw [hs] at hm; cases hm
  · rintro data q sid rfl hq hs hget
    exact ⟨by simp [query, hq, hs, hget, queryStatus], query_preserves_state _ llmOk st⟩

/-- C8 witness: a body-less query answers 400, and a well-formed query
with an unknown session answers 404, both leaving the state as it was. -/
theorem query_error_handling_witness :
    (queryStatus (query none true ⟨[], []⟩).1 = 400 ∧
      (query none true ⟨[], []⟩).2 = ⟨[], []⟩)
    ∧ (queryStatus (query (some [(("query"), ("q")), (("session_id"), ("s"))]) true ⟨[], []⟩).1 = 404 ∧
      (query (some [(("query"), ("q")), (("session_id"), ("s"))]) true ⟨[], []⟩).2 = ⟨[], []⟩) :=
  ⟨(query_error_handling none true ⟨[], []⟩).1 (Or.inl rfl),
   (query_error_handling (some [(("query"), ("q")), (("session_id"), ("s"))]) true ⟨[], []⟩).2
     [(("query"), ("q")), (("session_id"), ("s"))] ("q") ("s") rfl (by decide) (by decide) rfl⟩

/-- C9: every operation preserves existing session bindings: an upload
performed with a fresh identifier leaves every existing key bound to the
same index, and a query never changes the state at all — no rebinding, no
removal. -/
theorem session_binding_stable (files? : Option (List String)) (build : Option Index)
    (sid : String) (st : AppState) (k : String) (v : Index)
    (body : Option (List (String × String))) (llmOk : Bool)
    (hfresh : sessionGet sid st.stores = none)
    (hk : sessionGet k st.stores = some v) :
    sessionGet k (upload files? build sid st).2.stores = some v
    ∧ (query body llmOk st).2 = st := by
  refine ⟨?_, query_preserves_state body llmOk st⟩
  have hkne : (k == sid) = false := by
    by_contra hc
    rw [Bool.not_eq_false] at hc
    have : k = sid := eq_of_beq hc
    subst this
    rw [hfresh] at hk
    cases hk
  cases files? with
  | none => simpa [upload] using hk
  | some files =>
    cases hguard : (files.isEmpty || files.all (· == "")) with
    | true => simpa [upload, hguard] using hk
    | false =>
      cases hpf : processFiles files [] with
      | error s => simpa [upload, hguard, hpf] using hk
      | ok s =>
        cases build with
        | none => simpa [upload, hguard, hpf] using hk
        | some idx =>
          simpa [upload, hguard, hpf, sessionGet, sessionCreate, List.lookup, hkne] using hk

/-- C9 witness: uploading with a fresh identifier keeps an existing
binding, and a query leaves the state untouched. -/
theorem session_binding_stable_witness :
    sessionGet ("k0") (upload (some [("a.pdf")]) (some 1) ("fresh") ⟨[(("k0"), 7)], []⟩).2.stores = some 7
    ∧ (query none true ⟨[(("k0"), 7)], []⟩).2 = ⟨[(("k0"), 7)], []⟩ :=
  session_binding_stable (some [("a.pdf")]) (some 1) ("fresh") ⟨[(("k0"), 7)], []⟩
    ("k0") 7 none true (by decide) (by decide)

/-- Modelled from the spec: the Chunker used at app.py line 68 is the
third-party RecursiveCharacterTextSplitter, whose implementation is not
part of this repository; per the spec it splits an extracted text into
passages of at most the target chunk size (1000 characters), each
consecutive pair sharing the configured overlap (100 characters), with
the final chunk keeping its natural size.  The passage starting points
therefore advance by 1000 - 100 = 900 characters. -/
def chunkText (l : List Char) : List (List Char) :=
  if _h : l.length ≤ 1000 then [l]
  else l.take 1000 :: chunkText (l.drop 900)
termination_by l.length
decreasing_by
  rw [List.length_drop]
  omega

/-- Concatenation of the passages with the 100-character overlap removed
from the front of every passage but the first. -/
def reassemble : List (List Char) → List Char
  | [] => []
  | c :: rest => c ++ (rest.map (fun p => p.drop 100)).flatten

theorem chunkText_head (l : List Char) :
    (chunkText l).head? = some (l.take 1000) := by
  rw [chunkText]
  split
  · rw [List.take_of_length_le ‹_›]; rfl
  · rfl

/-- C4: any two consecutive passages produced by the Chunker share
exactly 100 characters of content: the last 100 characters of the first
are the first 100 characters of the second. -/
theorem chunker_consecutive_overlap (l : List Char) :
    List.Chain' (fun c1 c2 => c1.drop 900 = c2.take 100 ∧ (c1.drop 900).length = 100)
      (chunkText l) := by
  induction l using chunkText.induct with
  | case1 l h =>
    rw [chunkText, dif_pos h]
    exact List.chain'_singleton l
  | case2 l h ih =>
    rw [chunkText, dif_neg h]
    refine List.chain'_cons'.mpr ⟨?_, ih⟩
    intro y hy
    rw [chunkText_head] at hy
    simp only [Option.mem_def, Option.some.injEq] at hy
    subst hy
    constructor
    · rw [List.drop_take, List.take_take]
      norm_num
    · rw [List.length_drop, List.length_take]
      omega

theorem chunkText_length_le (l : List Char) :
    ∀ c ∈ chunkText l, c.length ≤ 1000 := by
  induction l using chunkText.induct with
  | case1 l h =>
    rw [chunkText, dif_pos h]
    intro c hc
    rw [List.mem_singleton] at hc
    subst hc
    exact h
  | case2 l h ih =>
    rw [chunkText, dif_neg h]
    intro c hc
    rcases List.mem_cons.mp hc with rfl | hc
    · rw [List.length_take]; omega
    · exact ih c hc

theorem chunkText_flatten_drop (l : List Char) :
    ((chunkText l).map (fun p => p.drop 100)).flatten = l.drop 100 := by
  induction l using chunkText.induct with
  | case1 l h =>
    rw [chunkText, dif_pos h]
    simp
  | case2 l h ih =>
    rw [chunkText, dif_neg h]
    simp only [List.map_cons, List.flatten_cons, ih]
    rw [List.drop_take, List.drop_drop]
    norm_num
    have h1000 : List.drop 1000 l = List.drop 900 (List.drop 100 l) := by
      rw [List.drop_drop]
    rw [h1000]
    exact List.take_append_drop 900 (l.drop 100)

theorem chunkText_reassemble (l : List Char) : reassemble (chunkText l) = l := by
  by_cases h : l.length ≤ 1000
  · rw [chunkText, dif_pos h]
    simp [reassemble]
  · rw [chunkText, dif_neg h, reassemble, chunkText_flatten_drop, List.drop_drop]
    have h1000 : (900 : Nat) + 100 = 1000 := by norm_num
    rw [h1000]
    exact List.take_append_drop 1000 l

/-- C5: every passage is at most 1000 characters long, and concatenating
the passages with the overlaps removed reconstructs the original text, so
no trailing text is dropped. -/
theorem chunker_bounds_and_reconstruction (l : List Char) :
    (∀ c ∈ chunkText l, c.length ≤ 1000) ∧ reassemble (chunkText l) = l :=
  ⟨chunkText_length_le l, chunkText_reassemble l⟩

/-- C5 witness at a one-character text. -/
theorem chunker_bounds_and_reconstruction_witness :
    (['a'] : List Char).length ≤ 1000 ∧ reassemble (chunkText ['a']) = ['a'] := by
  have hmem : (['a'] : List Char) ∈ chunkText ['a'] := by
    rw [chunkText, dif_pos (by decide : (['a'] : List Char).length ≤ 1000)]
    exact List.mem_singleton.mpr rfl
  exact ⟨(chunker_bounds_and_reconstruction ['a']).1 ['a'] hmem,
    (chunker_bounds_and_reconstruction ['a']).2⟩

/-- Modelled from the spec: the Retriever behind
vector_store.similarity_search at app.py line 122 is the third-party FAISS
index, whose implementation is not part of this repository; per the spec
it returns the passages of the queried index ordered by non-decreasing
embedding distance to the query, truncated to the default K = 4.  dist
gives each indexed passage its distance to the query embedding. -/
def searchK {α : Type} (dist : α → Nat) (index : List α) : List α :=
  (List.insertionSort (fun a b => dist a ≤ dist b) index).take 4

/-- C6: the search returns at most 4 passages, each drawn from the queried
index, in non-decreasing distance order, and returns every passage when
the index holds fewer than 4. -/
theorem retriever_search_spec {α : Type} (dist : α → Nat) (index : List α) :
    (searchK dist index).length ≤ 4
    ∧ (∀ x ∈ searchK dist index, x ∈ index)
    ∧ List.Sorted (fun a b => dist a ≤ dist b) (searchK dist index)
    ∧ (index.length < 4 → (searchK dist index).Perm index) := by
  haveI htot : IsTotal α (fun a b => dist a ≤ dist b) := ⟨fun a b => Nat.le_total _ _⟩
  haveI htr : IsTrans α (fun a b => dist a ≤ dist b) := ⟨fun _ _ _ hab hbc => le_trans hab hbc⟩
  have hperm := List.perm_insertionSort (fun a b => dist a ≤ dist b) index
  refine ⟨?_, ?_, ?_, ?_⟩
  · rw [searchK, List.length_take]
    exact min_le_left _ _
  · intro x hx
    exact hperm.mem_iff.mp ((List.take_sublist 4 _).mem hx)
  · exact (List.sorted_insertionSort _ index).sublist (List.take_sublist 4 _)
  · intro hlt
    rw [searchK, List.take_of_length_le]
    · exact hperm
    · rw [hperm.length_eq]
      omega

/-- C6 witness: on a two-passage index the search returns a permutation of
the whole index, sorted, of length at most 4, with each result a member of
the index. -/
theorem retriever_search_spec_witness :
    (searchK (fun n : Nat => n) [2, 1]).length ≤ 4
    ∧ (1 : Nat) ∈ [2, 1]
    ∧ (searchK (fun n : Nat => n) [2, 1]).Perm [2, 1] :=
  ⟨(retriever_search_spec (fun n => n) [2, 1]).1,
   (retriever_search_spec (fun n => n) [2, 1]).2.1 1 (by decide),
   (retriever_search_spec (fun n => n) [2, 1]).2.2.2 (by decide)⟩
